import Mathlib

/-!
Verification development for the ngraph IR subset: the PriorBoxClustered
operation's shape-inference and duplication contracts
(src/ngraph/op/experimental/layers/prior_box_clustered.cpp) and the
height / jump-distance analysis of the visualization pass
(src/ngraph/pass/visualize_tree.cpp), shallowly embedded in Lean.
-/

/-! ## Shape / type model (substrate used by the inference rule) -/

/-- Modelled from the spec: an element type is "an enumerated scalar kind";
`dynamic` is the "any" element type.  Only the kinds the claims touch are
enumerated; adding more constructors changes nothing below. -/
inductive ElementType where
  | dynamic
  | i64
  | i32
  | f32
  | f16
  | boolean
  deriving DecidableEq, Repr, Inhabited

/-- Modelled from the spec: `compatible(a, b)` for element types "returns true
iff they are identical or either is any" (spec 4.1; `element::Type::compatible`
is ngraph core, outside the staged sources). -/
def ElementType.compatible (a b : ElementType) : Bool :=
  a == ElementType.dynamic || b == ElementType.dynamic || a == b

/-- Modelled from the spec: a static shape is "an ordered sequence of
non-negative dimension sizes" (spec 3). -/
def Shape : Type := List Nat

/-- Modelled from the spec: `size` of a shape is the product of its dimensions,
a rank-0 shape being "treated as scalar with size 1" (spec 3; `ngraph::shape_size`
is outside the staged sources). -/
def shape_size (s : List Nat) : Nat :=
  s.foldl (fun a d => a * d) 1

/-- Modelled from the spec: a partial shape is "either fully dynamic (unknown
rank), or a sequence of per-dimension values each either a concrete size or
unknown" (spec 3).  `PartialShape.dynamic` embeds `PartialShape::dynamic()`. -/
inductive PartialShape where
  | dynamic
  | dims (l : List (Option Nat))
  deriving DecidableEq, Repr, Inhabited

/-- The rank of a partial shape: unknown (`none`) when the rank is dynamic. -/
def PartialShape.rank : PartialShape → Option Nat
  | PartialShape.dynamic => none
  | PartialShape.dims l => some l.length

/-- Modelled from the spec: two possibly-unknown ranks are compatible iff
either is unknown or they are equal (spec 4.1's rank-compatibility, ngraph's
`Rank = Dimension` compatibility is outside the staged sources). -/
def rank_compatible (a b : Option Nat) : Bool :=
  a.isNone || b.isNone || a == b

/-- A concrete shape converted to a partial shape: every dimension static. -/
def shape_to_partial_shape (s : List Nat) : PartialShape :=
  PartialShape.dims (s.map some)

/-- Conversion of a (possibly wrapped) int64 value to `size_t`, as the C++
dimension expression `Shape{2, 4 * layer_shape[0] * layer_shape[1] * m_num_priors}`
performs: the value reduced modulo 2^64, non-negative. -/
def int64_to_size_t (x : Int) : Nat :=
  (x % ((2 : Int) ^ 64)).toNat

/-! ## The PriorBoxClustered operation -/

/-- The payload of an `op::Constant` argument as the inference rule reads it:
its static shape and its element data (i64 values via `get_data_ptr`).  The
invariant that a constant holds exactly `shape_size` elements is part of the
`Constant` contract. -/
structure ConstData where
  cshape : List Nat
  cdata : List Int
  data_size : cdata.length = shape_size cshape

/-- An argument node as the PriorBoxClustered inference rule observes it: the
element type and partial shape of its single output, and, when the node is an
`op::Constant` (the `dynamic_pointer_cast` in the source), its payload. -/
structure Arg where
  et : ElementType
  pshape : PartialShape
  constant : Option ConstData

/-- The attributes of `op::PriorBoxClustered`, as stored by its constructor. -/
structure PriorBoxClusteredAttrs where
  num_priors : Nat
  widths : List Float
  heights : List Float
  clip : Bool
  step_widths : Float
  step_heights : Float
  offset : Float
  variances : List Float

/-- The validation errors the PriorBoxClustered paths can raise
(`NODE_VALIDATION_CHECK` / `check_new_args_count`): each constructor names the
offending input or attribute and carries the actual value seen, mirroring the
expected-versus-actual message text of the source. -/
inductive NodeValidationError where
  | layer_et_not_i64 (actual : ElementType)
  | image_et_not_i64 (actual : ElementType)
  | rank_mismatch (layer_rank image_rank : Option Nat)
  | widths_size_mismatch (num_priors widths_size : Nat)
  | heights_size_mismatch (num_priors heights_size : Nat)
  | layer_shape_size_not_2 (cshape : List Nat)
  | new_args_count_mismatch (expected actual : Nat)
  deriving DecidableEq, Repr

/-- `op::PriorBoxClustered::validate_and_infer_types`, translated check for
check from the source: element types of both shape inputs must be compatible
with i64, the two input ranks must be compatible, the widths and heights lists
must have `num_priors` entries; then, if the first argument is a compile-time
constant, its total element count must be 2 and the output is the static shape
`{2, 4 * layer_shape[0] * layer_shape[1] * m_num_priors}` with element type
f32, else the output is `PartialShape::dynamic()` with element type f32.
(The source's `set_input_is_relevant_to_shape(0)` bookkeeping touches node
metadata no claim mentions and has no effect on the returned type/shape.) -/
def validate_and_infer_types (layer_shape image_shape : Arg)
    (a : PriorBoxClusteredAttrs) :
    Except NodeValidationError (ElementType × PartialShape) :=
  let layer_shape_et := layer_shape.et
  if ! layer_shape_et.compatible ElementType.i64 then
    Except.error (NodeValidationError.layer_et_not_i64 layer_shape_et)
  else
    let image_shape_et := image_shape.et
    if ! image_shape_et.compatible ElementType.i64 then
      Except.error (NodeValidationError.image_et_not_i64 image_shape_et)
    else
      let layer_shape_rank := layer_shape.pshape.rank
      let image_shape_rank := image_shape.pshape.rank
      if ! rank_compatible layer_shape_rank image_shape_rank then
        Except.error (NodeValidationError.rank_mismatch layer_shape_rank image_shape_rank)
      else if a.widths.length ≠ a.num_priors then
        Except.error (NodeValidationError.widths_size_mismatch a.num_priors a.widths.length)
      else if a.heights.length ≠ a.num_priors then
        Except.error (NodeValidationError.heights_size_mismatch a.num_priors a.heights.length)
      else
        match layer_shape.constant with
        | some const_shape =>
          if shape_size const_shape.cshape ≠ 2 then
            Except.error (NodeValidationError.layer_shape_size_not_2 const_shape.cshape)
          else
            Except.ok (ElementType.f32,
              shape_to_partial_shape
                [2, int64_to_size_t
                      (4 * const_shape.cdata.getD 0 0 * const_shape.cdata.getD 1 0
                         * (a.num_priors : Int))])
        | none => Except.ok (ElementType.f32, PartialShape.dynamic)

/-- A constructed `op::PriorBoxClustered` node: its two bound arguments, its
attributes, and the single output's element type and partial shape as set by
the inference rule. -/
structure PriorBoxClusteredNode where
  layer_shape : Arg
  image_shape : Arg
  attrs : PriorBoxClusteredAttrs
  output_et : ElementType
  output_pshape : PartialShape

/-- The `op::PriorBoxClustered` constructor: binds the two arguments and the
attributes and immediately runs `constructor_validate_and_infer_types`; a
validation failure aborts the construction, success yields the node with its
output type and shape set by the rule. -/
def PriorBoxClustered.construct (layer_shape image_shape : Arg)
    (a : PriorBoxClusteredAttrs) :
    Except NodeValidationError PriorBoxClusteredNode :=
  match validate_and_infer_types layer_shape image_shape a with
  | Except.error e => Except.error e
  | Except.ok (et, ps) =>
    Except.ok { layer_shape := layer_shape, image_shape := image_shape,
                attrs := a, output_et := et, output_pshape := ps }

/-- Modelled from the spec: `check_new_args_count` (ngraph core, outside the
staged sources) fails with an arity-mismatch validation error unless "the
replacement list's length exactly equals the original's input arity"
(spec 4.2). -/
def check_new_args_count (arity : Nat) (new_args : List Arg) :
    Except NodeValidationError Unit :=
  if new_args.length = arity then Except.ok ()
  else Except.error (NodeValidationError.new_args_count_mismatch arity new_args.length)

/-- `op::PriorBoxClustered::copy_with_new_args`: checks the replacement count
against the node's input arity (2), then constructs a fresh PriorBoxClustered
from `new_args.at(0)`, `new_args.at(1)` and the original's attributes (which
re-runs the inference rule).  The final branch is unreachable: the count check
only succeeds on two-element lists. -/
def copy_with_new_args (node : PriorBoxClusteredNode) (new_args : List Arg) :
    Except NodeValidationError PriorBoxClusteredNode :=
  match check_new_args_count 2 new_args, new_args with
  | Except.error e, _ => Except.error e
  | Except.ok _, a0 :: a1 :: _ => PriorBoxClustered.construct a0 a1 node.attrs
  | Except.ok _, _ =>
    Except.error (NodeValidationError.new_args_count_mismatch 2 new_args.length)

/-! ## Height maps and the jump-distance analysis (visualize_tree.cpp) -/

/-- Association-list lookup mirroring `unordered_map::count` / `::at`:
the value bound to key `q`, `none` when `q` is unbound. -/
def hfind : List (Nat × Int) → Nat → Option Int
  | [], _ => none
  | (k, v) :: t, q => if k = q then some v else hfind t q

/-- Association-list update mirroring `unordered_map::operator[] =`: rebinds
`k` in place when present, appends the binding otherwise. -/
def hinsert : List (Nat × Int) → Nat → Int → List (Nat × Int)
  | [], k, v => [(k, v)]
  | (k2, v2) :: t, k, v =>
    if k2 = k then (k2, v) :: t else (k2, v2) :: hinsert t k v

/-- `HeightMap`: the per-node map from sink (Result) nodes, identified by
numeric id, to the recorded height (`std::unordered_map<Node*, int64_t>`). -/
structure HeightMap where
  heights : List (Nat × Int)
  deriving DecidableEq, Repr, Inhabited

/-- `HeightMap::absorb`: for every binding `k -> v` of `other`, set this map's
entry at `k` to `max(m_heights[k], v + 1)`, where `operator[]` reads 0 for a
key not yet bound (C++ value-initializes the missing entry). -/
def HeightMap.absorb (m other : HeightMap) : HeightMap :=
  HeightMap.mk
    (other.heights.foldl
      (fun acc p => hinsert acc p.1 (max (((hfind acc p.1).getD 0)) (p.2 + 1)))
      m.heights)

/-- `HeightMap::max_jump_to`: starting from 0, for every binding `k -> v` of
this map whose key the target map also binds (to `w`), take the maximum with
`abs(w - v)`.  The C++ result is an `int64_t` that is always the natural
number computed here. -/
def HeightMap.max_jump_to (m target : HeightMap) : Nat :=
  m.heights.foldl
    (fun result p =>
      match hfind target.heights p.1 with
      | some w => max result (w - p.2).natAbs
      | none => result)
    0

/-! ## The node graph as the visualization pass reads it -/

/-- A node of a function's graph as `run_on_module` observes it: the numeric
identity (standing for the `Node*`), the kind tag (`description()`), the
generated name, the argument and user edges, and the single-output type/shape
data the dot labels read. -/
structure GNode where
  id : Nat
  description : String
  name : String
  args : List Nat
  users : List Nat
  is_output : Bool
  output_size : Nat
  goe_n : Option Nat
  out_et : ElementType
  out_pshape : PartialShape
  deriving DecidableEq, Repr, Inhabited

/-- A function (`ngraph::Function`) as the pass reads it: its op list in
`get_ops()` order.  `users` of a node is the flattening of
`for each output, for each target input: input.get_node()`. -/
structure Graph where
  nodes : List GNode
  deriving DecidableEq, Repr, Inhabited

/-- The node of `g` with id `i`, when present. -/
def Graph.findNode (g : Graph) (i : Nat) : Option GNode :=
  g.nodes.find? (fun n => n.id == i)

/-- The user edges of node `i` of `g` (empty for an id not in the graph, which
the pass never queries). -/
def Graph.users (g : Graph) (i : Nat) : List Nat :=
  ((g.findNode i).getD default).users

/-- Pointwise update of the `height_maps` table at one node id. -/
def setH (hm : Nat → HeightMap) (n : Nat) (v : HeightMap) : Nat → HeightMap :=
  fun k => if k = n then v else hm k

/-- The seeding loop of `run_on_module`: every node whose `description()` is
"Result" gets the height map `{self -> 0}`, every other node an empty map
(`unordered_map` reads back an empty `HeightMap` for ids never written, so the
initial table is the constant empty map). -/
def seedMaps (g : Graph) : Nat → HeightMap :=
  g.nodes.foldl
    (fun hm nd =>
      setH hm nd.id
        (if nd.description = "Result" then HeightMap.mk [(nd.id, 0)] else HeightMap.mk []))
    (fun _ => HeightMap.mk [])

/-- One step of the processing loop: for each user edge of node `n` in order,
`height_maps[n].absorb(height_maps[target])`, each absorb immediately visible
to the next (the C++ mutates `height_maps[node]` in place). -/
def processNode (g : Graph) (hm : Nat → HeightMap) (n : Nat) : Nat → HeightMap :=
  (g.users n).foldl (fun acc u => setH acc n ((acc n).absorb (acc u))) hm

/-- The height analysis of `run_on_module`: seed, then process the node ids in
the supplied order — the caller passes the reversal of a topological order,
`topological_sort` itself being ngraph core outside the staged sources. -/
def computeHeightMaps (g : Graph) (order : List Nat) : Nat → HeightMap :=
  order.foldl (processNode g) (seedMaps g)

/-! ## The VisualizeTree pass -/

/-- The environment switches `run_on_module` and its helpers read through
`getenv` (NGRAPH_VISUALIZE_EDGE_LABELS, NGRAPH_VISUALIZE_EDGE_JUMP_DISTANCE,
NGRAPH_VISUALIZE_TREE_OUTPUT_SHAPES, NGRAPH_VISUALIZE_TREE_OUTPUT_TYPES),
fixed for the whole run. -/
structure VTEnv where
  edge_labels : Bool
  jump_distance_labels : Bool
  output_shapes : Bool
  output_types : Bool

/-- The pass-local mutable state of `VisualizeTree`: the dot text stream
`m_ss`, the `m_nodes_with_attributes` set (node ids already given an attribute
line) and the fake-node counter. -/
structure VTState where
  ss : String
  nodes_with_attributes : List Nat
  fake_node_ctr : Nat

/-- `label_edge`: under the edge-labels switch, emit the output-index to
arg-index label (the output index is `get_n()` when the destination is a
`GetOutputElement`, else 0); under the jump-distance switch, label edges whose
jump distance exceeds 1; otherwise no label. -/
def label_edge (env : VTEnv) (dst : GNode) (arg_index : Nat)
    (jump_distance : Nat) : String :=
  if env.edge_labels then
    let output := dst.goe_n.getD 0
    "[label=\" " ++ toString output ++ " -> " ++ toString arg_index ++ " \"]"
  else if env.jump_distance_labels then
    if jump_distance > 1 then
      "[label=\"jump=" ++ toString jump_distance ++ "\"]"
    else ""
  else ""

/-- `vector_to_string` over a static shape, for the dot label text. -/
def vector_to_string (v : List Nat) : String :=
  "[" ++ String.intercalate ( ", " ) (v.map toString) ++ "]"

/-- The label text for a node's output shape (`get_shape`, defined when the
shape is static; the pass only prints it for single-output nodes). -/
def partial_shape_text : PartialShape → String
  | PartialShape.dims l => vector_to_string (l.map (fun d => d.getD 0))
  | PartialShape.dynamic => "[?]"

/-- `c_type_string` of an element type, for the dot label text. -/
def ElementType.c_type_string : ElementType → String
  | ElementType.dynamic => "dynamic"
  | ElementType.i64 => "int64_t"
  | ElementType.i32 => "int32_t"
  | ElementType.f32 => "float"
  | ElementType.f16 => "ngraph::float16"
  | ElementType.boolean => "char"

/-- `VisualizeTree::get_attributes`: shape=box, crimson for output nodes and
black otherwise, then the label holding the node name and, under the
respective switches, the output shape and type (skipped for multi-output
nodes).  The externally registered detail hooks (`m_ops_to_details`,
`m_node_modifiers`) are external collaborators, modelled as not installed. -/
def get_attributes (env : VTEnv) (node : GNode) : String :=
  let attrs0 := ["shape=box"]
  let attrs1 := attrs0 ++
    (if node.is_output then ["color=crimson", "penwidth=1.5"] else ["color=black"])
  let label0 := "label=\"" ++ node.name
  let label1 := label0 ++
    (if env.output_shapes then
      " " ++ (if node.output_size ≠ 1 then "[skipped]" else partial_shape_text node.out_pshape)
     else "")
  let label2 := label1 ++
    (if env.output_types then
      " " ++ (if node.output_size ≠ 1 then "[skipped]" else node.out_et.c_type_string)
     else "")
  let attrs := attrs1 ++ [label2 ++ "\""]
  "    " ++ node.name ++ " [" ++ String.intercalate ( " " ) attrs ++ "]\n"

/-- `VisualizeTree::add_attributes`: emit the attribute line for a node the
first time it is seen, recording it in `m_nodes_with_attributes`. -/
def add_attributes (env : VTEnv) (st : VTState) (node : GNode) : VTState :=
  if node.id ∈ st.nodes_with_attributes then st
  else { st with nodes_with_attributes := node.id :: st.nodes_with_attributes,
                 ss := st.ss ++ get_attributes env node }

/-- The cut threshold `max_jump_distance` of `run_on_module`. -/
def max_jump_distance : Nat := 20

/-- The body of the per-argument loop of `run_on_module`'s traversal: compute
the jump distance from the argument's height map to the node's, then either
float a Constant/Parameter argument as a dashed CLONE copy, cut a long edge
through SEND/RECV box pairs, or emit the plain edge. -/
def emit_edge (env : VTEnv) (g : Graph) (hm : Nat → HeightMap) (node : GNode)
    (st : VTState) (arg_index : Nat) (aid : Nat) : VTState :=
  let arg := (g.findNode aid).getD default
  let jump_distance := (hm aid).max_jump_to (hm node.id)
  if arg.description = "Constant" ∨ arg.description = "Parameter" then
    let clone_name := "CLONE_" ++ toString st.fake_node_ctr
    let color := if arg.description = "Parameter" then "blue" else "black"
    { st with
      ss := st.ss
        ++ "    " ++ clone_name ++ "[shape=\"box\" style=\"dashed,filled\" color=\"" ++ color
        ++ "\" fillcolor=\"white\" label=\"" ++ arg.name ++ "\"]\n"
        ++ "    " ++ clone_name ++ " -> " ++ node.name
        ++ label_edge env node arg_index jump_distance ++ "\n",
      fake_node_ctr := st.fake_node_ctr + 1 }
  else if jump_distance > max_jump_distance then
    let st1 := add_attributes env st arg
    let st2 := add_attributes env st1 node
    let recv_node_name := "RECV_" ++ toString st2.fake_node_ctr
    let send_node_name := "SEND_" ++ toString st2.fake_node_ctr
    { st2 with
      ss := st2.ss
        ++ "    " ++ recv_node_name
        ++ "[shape=\"box\" style=\"solid,filled\" fillcolor=\"#ffcccc\" label=\"Receive["
        ++ arg.name ++ "]\"]\n"
        ++ "    " ++ send_node_name
        ++ "[shape=\"box\" style=\"solid,filled\" fillcolor=\"#ccffcc\" label=\"Send["
        ++ node.name ++ "]\"]\n"
        ++ "    " ++ arg.name ++ " -> " ++ send_node_name
        ++ label_edge env node arg_index jump_distance ++ "\n"
        ++ "    " ++ recv_node_name ++ " -> " ++ node.name
        ++ label_edge env node arg_index jump_distance ++ "\n",
      fake_node_ctr := st2.fake_node_ctr + 1 }
  else
    let st1 := add_attributes env st arg
    let st2 := add_attributes env st1 node
    { st2 with
      ss := st2.ss ++ "    " ++ arg.name ++ " -> " ++ node.name
        ++ label_edge env node arg_index jump_distance ++ "\n" }

/-- The traversal callback of `run_on_module` for one node: walk its argument
list with a running argument index. -/
def emit_node (env : VTEnv) (g : Graph) (hm : Nat → HeightMap)
    (st : VTState) (node : GNode) : VTState :=
  (node.args.foldl
    (fun acc aid => (emit_edge env g hm node acc.1 acc.2 aid, acc.2 + 1))
    (st, 0)).1

/-- The per-function body of `run_on_module`: build the height maps (seeding
loop, then the absorb loop over the reversed topological order) and emit the
dot text for every node.  `topological_sort` and `traverse_nodes` are ngraph
core outside the staged sources; the sort is a parameter and the traversal
visits the function's op list — neither choice affects graph state or the
return value. -/
def process_function (topo : Graph → List Nat) (env : VTEnv) (f : Graph)
    (st : VTState) : VTState :=
  let hm := computeHeightMaps f ((topo f).reverse)
  f.nodes.foldl (emit_node env f hm) st

/-- `VisualizeTree::render`, with the file write modelled as returning the
file's content: the accumulated stream wrapped in a digraph block. -/
def render (st : VTState) : String :=
  "digraph ngraph\n\x7b\n" ++ st.ss ++ "\x7d\n"

/-- What a `run_on_module` call produces: the functions of the module as they
stand after the pass, the pass state, the rendered dot text, and the
"graph changed" signal returned to the pass manager. -/
structure RunResult where
  functions : List Graph
  state : VTState
  dot : String
  changed : Bool

/-- `pass::VisualizeTree::run_on_module`: for every function of the module,
run the height analysis and emit its dot text; render; return false.  The
module's functions are threaded through the loop and handed back as the pass
leaves them. -/
def run_on_module (topo : Graph → List Nat) (env : VTEnv)
    (functions : List Graph) (st : VTState) : RunResult :=
  let out := functions.foldl
    (fun acc f => (acc.1 ++ [f], process_function topo env f acc.2))
    (([] : List Graph), st)
  { functions := out.1, state := out.2, dot := render out.2, changed := false }

/-! ## Concrete fixtures used by witnesses and counterexamples -/

/-- A compile-time constant holding the two i64 values 3 and 4 in shape `{2}`. -/
def pbc_const_3_4 : ConstData :=
  { cshape := [2], cdata := [3, 4], data_size := by decide }

/-- A first (layer-shape) argument: i64, shape `{2}`, constant `[3, 4]`. -/
def pbc_layer_const : Arg :=
  { et := ElementType.i64, pshape := PartialShape.dims [some 2],
    constant := some pbc_const_3_4 }

/-- A first argument that is not a compile-time constant. -/
def pbc_layer_dyn : Arg :=
  { et := ElementType.i64, pshape := PartialShape.dims [some 2], constant := none }

/-- A second (image-shape) argument: i64, shape `{2}`, not a constant. -/
def pbc_image : Arg :=
  { et := ElementType.i64, pshape := PartialShape.dims [some 2], constant := none }

/-- An argument of element type f32 (incompatible with i64). -/
def pbc_arg_f32 : Arg :=
  { et := ElementType.f32, pshape := PartialShape.dims [some 2], constant := none }

/-- Attributes with `num_priors = 5` and five widths/heights. -/
def pbc_attrs_5 : PriorBoxClusteredAttrs :=
  { num_priors := 5, widths := [1.0, 1.0, 1.0, 1.0, 1.0],
    heights := [1.0, 1.0, 1.0, 1.0, 1.0], clip := false,
    step_widths := 0.0, step_heights := 0.0, offset := 0.0, variances := [] }

/-- Attributes with `num_priors = 1` and one width/height. -/
def pbc_attrs_1 : PriorBoxClusteredAttrs :=
  { num_priors := 1, widths := [1.0], heights := [1.0], clip := false,
    step_widths := 0.0, step_heights := 0.0, offset := 0.0, variances := [] }

/-- A validly constructed PriorBoxClustered node (the value
`PriorBoxClustered.construct pbc_layer_dyn pbc_image pbc_attrs_1` yields). -/
def pbc_node_1 : PriorBoxClusteredNode :=
  { layer_shape := pbc_layer_dyn, image_shape := pbc_image, attrs := pbc_attrs_1,
    output_et := ElementType.f32, output_pshape := PartialShape.dynamic }

/-- The four-node single-path graph `A -> B -> C -> D` (ids 0..3), `D` the only
Result node; `[3, 2, 1, 0]` is the reversal of its topological order. -/
def path_graph : Graph :=
  Graph.mk
    [ { id := 0, description := "Add", name := "A", args := [], users := [1],
        is_output := false, output_size := 1, goe_n := none,
        out_et := ElementType.f32, out_pshape := PartialShape.dynamic },
      { id := 1, description := "Add", name := "B", args := [0], users := [2],
        is_output := false, output_size := 1, goe_n := none,
        out_et := ElementType.f32, out_pshape := PartialShape.dynamic },
      { id := 2, description := "Add", name := "C", args := [1], users := [3],
        is_output := false, output_size := 1, goe_n := none,
        out_et := ElementType.f32, out_pshape := PartialShape.dynamic },
      { id := 3, description := "Result", name := "D", args := [2], users := [],
        is_output := true, output_size := 1, goe_n := none,
        out_et := ElementType.f32, out_pshape := PartialShape.dynamic } ]

/-- A single node with no users that is not of the Result kind. -/
def lone_add_graph : Graph :=
  Graph.mk
    [ { id := 0, description := "Add", name := "A", args := [], users := [],
        is_output := false, output_size := 1, goe_n := none,
        out_et := ElementType.f32, out_pshape := PartialShape.dynamic } ]

/-- A two-node graph `X -> R` with `R` the Result node (ids 0, 1);
`[1, 0]` is the reversal of its topological order. -/
def two_node_graph : Graph :=
  Graph.mk
    [ { id := 0, description := "Add", name := "X", args := [], users := [1],
        is_output := false, output_size := 1, goe_n := none,
        out_et := ElementType.f32, out_pshape := PartialShape.dynamic },
      { id := 1, description := "Result", name := "R", args := [0], users := [],
        is_output := true, output_size := 1, goe_n := none,
        out_et := ElementType.f32, out_pshape := PartialShape.dynamic } ]

/-- The node `copy_with_new_args pbc_node_1 [pbc_layer_const, pbc_image]`
constructs: the original attributes bound to the new arguments, output shape
`{2, 4 * 3 * 4 * 1}`. -/
def pbc_copy_node : PriorBoxClusteredNode :=
  { layer_shape := pbc_layer_const, image_shape := pbc_image, attrs := pbc_attrs_1,
    output_et := ElementType.f32, output_pshape := PartialShape.dims [some 2, some 48] }

/-- The step function of `HeightMap::max_jump_to`'s loop, with the target map's
entries as a parameter (named so the fold lemmas below can speak about it). -/
def jstep (bh : List (Nat × Int)) (result : Nat) (p : Nat × Int) : Nat :=
  match hfind bh p.1 with
  | some w => max result (w - p.2).natAbs
  | none => result

/-! ## Association-list lemmas -/

theorem hfind_hinsert_self (l : List (Nat × Int)) (k : Nat) (v : Int) :
    hfind (hinsert l k v) k = some v := by
  induction l with
  | nil => simp [hinsert, hfind]
  | cons p t ih =>
    obtain ⟨pk, pv⟩ := p
    by_cases h : pk = k
    · simp [hinsert, hfind, h]
    · simp [hinsert, hfind, h, ih]

theorem hfind_hinsert_ne (l : List (Nat × Int)) (k : Nat) (v : Int) (q : Nat)
    (h : q ≠ k) : hfind (hinsert l k v) q = hfind l q := by
  induction l with
  | nil => simp [hinsert, hfind, Ne.symm h]
  | cons p t ih =>
    obtain ⟨pk, pv⟩ := p
    by_cases h2 : pk = k
    · simp [hinsert, hfind, h2, Ne.symm h]
    · by_cases h3 : pk = q
      · simp [hinsert, hfind, h2, h3, h]
      · simp [hinsert, hfind, h2, h3, ih]

theorem mem_of_hfind (l : List (Nat × Int)) (k : Nat) (v : Int)
    (h : hfind l k = some v) : (k, v) ∈ l := by
  induction l with
  | nil => simp [hfind] at h
  | cons p t ih =>
    obtain ⟨pk, pv⟩ := p
    by_cases h2 : pk = k
    · simp [hfind, h2] at h
      exact List.mem_cons.mpr (Or.inl (by rw [h2, h]))
    · simp [hfind, h2] at h
      exact List.mem_cons.mpr (Or.inr (ih h))

theorem hfind_of_mem_nodup (l : List (Nat × Int)) (k : Nat) (v : Int)
    (hn : (l.map Prod.fst).Nodup) (h : (k, v) ∈ l) : hfind l k = some v := by
  induction l with
  | nil => simp at h
  | cons p t ih =>
    obtain ⟨pk, pv⟩ := p
    rw [List.map_cons, List.nodup_cons] at hn
    rcases List.mem_cons.mp h with h1 | h1
    · have hk : pk = k := by
        have := congrArg Prod.fst h1
        simpa using this.symm
      have hv : pv = v := by
        have := congrArg Prod.snd h1
        simpa using this.symm
      simp [hfind, hk, hv]
    · by_cases h2 : pk = k
      · exfalso
        apply hn.1
        rw [h2]
        exact List.mem_map.mpr ⟨(k, v), h1, rfl⟩
      · simp only [hfind, if_neg h2]
        exact ih hn.2 h1

theorem hfind_some_of_mem (l : List (Nat × Int)) (k : Nat) (v : Int)
    (h : (k, v) ∈ l) : ∃ w, hfind l k = some w := by
  induction l with
  | nil => simp at h
  | cons p t ih =>
    obtain ⟨pk, pv⟩ := p
    by_cases h2 : pk = k
    · exact ⟨pv, by simp [hfind, h2]⟩
    · rcases List.mem_cons.mp h with h1 | h1
      · exact absurd (by simpa using (congrArg Prod.fst h1).symm) h2
      · simpa [hfind, h2] using ih h1

/-! ## The absorb loop, pointwise -/

theorem absorb_fold_not_mem (os : List (Nat × Int)) :
    ∀ (acc : List (Nat × Int)) (k : Nat), k ∉ os.map Prod.fst →
      hfind (os.foldl
        (fun acc2 p => hinsert acc2 p.1 (max (((hfind acc2 p.1).getD 0)) (p.2 + 1)))
        acc) k = hfind acc k := by
  induction os with
  | nil => intro acc k _; rfl
  | cons p t ih =>
    intro acc k hk
    obtain ⟨pk, pv⟩ := p
    rw [List.map_cons] at hk
    have hk1 : k ≠ pk := fun h => hk (by simp [h])
    have hk2 : k ∉ t.map Prod.fst := fun h => hk (by simp [h])
    rw [List.foldl_cons, ih _ k hk2]
    exact hfind_hinsert_ne _ _ _ _ hk1

theorem absorb_fold_spec (os : List (Nat × Int)) :
    ∀ (acc : List (Nat × Int)) (k : Nat), (os.map Prod.fst).Nodup →
      hfind (os.foldl
        (fun acc2 p => hinsert acc2 p.1 (max (((hfind acc2 p.1).getD 0)) (p.2 + 1)))
        acc) k =
      (match hfind os k with
       | some v => some (max ((hfind acc k).getD 0) (v + 1))
       | none => hfind acc k) := by
  induction os with
  | nil => intro acc k _; rfl
  | cons p t ih =>
    intro acc k hn
    obtain ⟨pk, pv⟩ := p
    rw [List.map_cons, List.nodup_cons] at hn
    by_cases hk : pk = k
    · have hkt : k ∉ t.map Prod.fst := by rw [← hk]; exact hn.1
      rw [List.foldl_cons, absorb_fold_not_mem t _ k hkt]
      simp only [hfind, if_pos hk, hk]
      exact hfind_hinsert_self _ _ _
    · rw [List.foldl_cons, ih _ k hn.2]
      have hacc : hfind (hinsert acc pk (max (((hfind acc pk).getD 0)) (pv + 1))) k
          = hfind acc k := hfind_hinsert_ne _ _ _ _ (fun h => hk h.symm)
      simp only [hfind, if_neg hk]
      cases hfind t k with
      | none => simp [hacc]
      | some v => simp [hacc]

/-- Pointwise reading of `HeightMap::absorb`: for a sink `k` the other map
binds to `v`, the absorbed map records the maximum of the currently recorded
height (0 when none is recorded yet, as `operator[]` default-inserts) and
`v + 1`; a sink the other map does not bind keeps its binding. -/
theorem hfind_absorb (m other : HeightMap) (k : Nat)
    (hn : (other.heights.map Prod.fst).Nodup) :
    hfind (m.absorb other).heights k =
      (match hfind other.heights k with
       | some v => some (max ((hfind m.heights k).getD 0) (v + 1))
       | none => hfind m.heights k) := by
  unfold HeightMap.absorb
  exact absorb_fold_spec other.heights m.heights k hn

/-! ## The max_jump_to loop -/

theorem max_jump_to_eq_fold (m target : HeightMap) :
    m.max_jump_to target = m.heights.foldl (jstep target.heights) 0 := rfl

theorem le_foldl_jstep (bh : List (Nat × Int)) (l : List (Nat × Int)) :
    ∀ r0 : Nat, r0 ≤ l.foldl (jstep bh) r0 := by
  induction l with
  | nil => intro r0; simp
  | cons p t ih =>
    intro r0
    refine le_trans ?_ (ih (jstep bh r0 p))
    cases h : hfind bh p.1 <;> simp [jstep, h]

theorem jump_le_of_mem (bh : List (Nat × Int)) (l : List (Nat × Int)) :
    ∀ (r0 : Nat) (k : Nat) (va vb : Int), (k, va) ∈ l → hfind bh k = some vb →
      (vb - va).natAbs ≤ l.foldl (jstep bh) r0 := by
  induction l with
  | nil => intro r0 k va vb hm; simp at hm
  | cons p t ih =>
    intro r0 k va vb hm hb
    rcases List.mem_cons.mp hm with h1 | h1
    · obtain ⟨pk, pv⟩ := p
      have hpk : pk = k := by simpa using (congrArg Prod.fst h1).symm
      have hpv : pv = va := by simpa using (congrArg Prod.snd h1).symm
      rw [List.foldl_cons]
      refine le_trans ?_ (le_foldl_jstep bh t _)
      simp [jstep, hpk, hpv, hb]
    · exact ih _ k va vb h1 hb

theorem foldl_jstep_attained (bh : List (Nat × Int)) (l : List (Nat × Int)) :
    ∀ r0 : Nat, l.foldl (jstep bh) r0 = r0 ∨
      ∃ k va vb, (k, va) ∈ l ∧ hfind bh k = some vb ∧
        l.foldl (jstep bh) r0 = (vb - va).natAbs := by
  induction l with
  | nil => intro r0; exact Or.inl rfl
  | cons p t ih =>
    intro r0
    obtain ⟨pk, pv⟩ := p
    rw [List.foldl_cons]
    rcases ih (jstep bh r0 (pk, pv)) with h | ⟨k, va, vb, hm, hb, heq⟩
    · cases hb : hfind bh pk with
      | none =>
        left
        rw [h]
        simp [jstep, hb]
      | some w =>
        have hj : jstep bh r0 (pk, pv) = max r0 (w - pv).natAbs := by simp [jstep, hb]
        rcases max_choice r0 (w - pv).natAbs with hmx | hmx
        · left
          rw [h, hj, hmx]
        · right
          exact ⟨pk, pv, w, List.mem_cons_self _ _, hb, by rw [h, hj, hmx]⟩
    · right
      exact ⟨k, va, vb, List.mem_cons_of_mem _ hm, hb, heq⟩

theorem foldl_jstep_all_none (bh : List (Nat × Int)) (l : List (Nat × Int)) :
    ∀ r0 : Nat, (∀ p ∈ l, hfind bh p.1 = none) → l.foldl (jstep bh) r0 = r0 := by
  induction l with
  | nil => intro r0 _; rfl
  | cons p t ih =>
    intro r0 h
    rw [List.foldl_cons]
    have h1 : jstep bh r0 p = r0 := by
      simp [jstep, h p (List.mem_cons_self _ _)]
    rw [h1]
    exact ih r0 (fun q hq => h q (List.mem_cons_of_mem _ hq))

theorem natAbs_swap (x y : Int) : (x - y).natAbs = (y - x).natAbs := by
  rw [← Int.natAbs_neg, neg_sub]

/-! ## The seeding and processing loops of the height analysis -/

theorem seed_fold_not_mem (l : List GNode) :
    ∀ (init : Nat → HeightMap) (k : Nat), k ∉ l.map GNode.id →
      (l.foldl
        (fun hm nd => setH hm nd.id
          (if nd.description = "Result" then HeightMap.mk [(nd.id, 0)] else HeightMap.mk []))
        init) k = init k := by
  induction l with
  | nil => intro init k _; rfl
  | cons x t ih =>
    intro init k hk
    rw [List.map_cons] at hk
    have hk1 : k ≠ x.id := fun h => hk (by simp [h])
    have hk2 : k ∉ t.map GNode.id := fun h => hk (by simp [h])
    rw [List.foldl_cons, ih _ k hk2]
    simp [setH, hk1]

theorem seed_fold_spec (l : List GNode) :
    ∀ (init : Nat → HeightMap) (nd : GNode), nd ∈ l → (l.map GNode.id).Nodup →
      (l.foldl
        (fun hm nd2 => setH hm nd2.id
          (if nd2.description = "Result" then HeightMap.mk [(nd2.id, 0)] else HeightMap.mk []))
        init) nd.id =
      (if nd.description = "Result" then HeightMap.mk [(nd.id, 0)] else HeightMap.mk []) := by
  induction l with
  | nil => intro init nd h; simp at h
  | cons x t ih =>
    intro init nd h hn
    rw [List.map_cons, List.nodup_cons] at hn
    rcases List.mem_cons.mp h with h1 | h1
    · rw [h1, List.foldl_cons]
      have hx : x.id ∉ t.map GNode.id := hn.1
      rw [seed_fold_not_mem t _ x.id hx]
      simp [setH]
    · rw [List.foldl_cons]
      exact ih _ nd h1 hn.2

/-- The seeding loop of `run_on_module`, pointwise: a Result-kind node starts
at `{self -> 0}`, every other node (users or no users) with an empty map. -/
theorem seedMaps_spec (g : Graph) (nd : GNode)
    (hids : (g.nodes.map GNode.id).Nodup) (h : nd ∈ g.nodes) :
    seedMaps g nd.id =
      (if nd.description = "Result" then HeightMap.mk [(nd.id, 0)] else HeightMap.mk []) := by
  unfold seedMaps
  exact seed_fold_spec g.nodes _ nd h hids

theorem process_inner_ne (n : Nat) (l : List Nat) :
    ∀ (acc : Nat → HeightMap) (k : Nat), k ≠ n →
      (l.foldl (fun a u => setH a n ((a n).absorb (a u))) acc) k = acc k := by
  induction l with
  | nil => intro acc k _; rfl
  | cons u t ih =>
    intro acc k hk
    rw [List.foldl_cons, ih _ k hk]
    simp [setH, hk]

theorem processNode_ne (g : Graph) (hm : Nat → HeightMap) (n k : Nat)
    (hk : k ≠ n) : processNode g hm n k = hm k :=
  process_inner_ne n (g.users n) hm k hk

theorem foldl_processNode_not_mem (g : Graph) (l : List Nat) :
    ∀ (hm : Nat → HeightMap) (k : Nat), k ∉ l →
      (l.foldl (processNode g) hm) k = hm k := by
  induction l with
  | nil => intro hm k _; rfl
  | cons u t ih =>
    intro hm k hk
    rw [List.foldl_cons, ih _ k (fun h => hk (List.mem_cons_of_mem _ h))]
    exact processNode_ne g hm u k (fun h => hk (h ▸ List.mem_cons_self _ _))

theorem process_inner_self (n : Nat) (l : List Nat) :
    ∀ (acc : Nat → HeightMap) (hm0 : Nat → HeightMap),
      (∀ u ∈ l, u ≠ n) → (∀ u ∈ l, acc u = hm0 u) →
      (l.foldl (fun a u => setH a n ((a n).absorb (a u))) acc) n =
        l.foldl (fun m u => m.absorb (hm0 u)) (acc n) := by
  induction l with
  | nil => intro acc hm0 _ _; rfl
  | cons u t ih =>
    intro acc hm0 hne hagree
    have hu : u ≠ n := hne u (List.mem_cons_self _ _)
    have hau : acc u = hm0 u := hagree u (List.mem_cons_self _ _)
    rw [List.foldl_cons, List.foldl_cons]
    have hstep : (setH acc n ((acc n).absorb (acc u))) n = (acc n).absorb (hm0 u) := by
      simp [setH, hau]
    rw [← hstep]
    refine ih _ hm0 (fun v hv => hne v (List.mem_cons_of_mem _ hv)) (fun v hv => ?_)
    have hv2 : v ≠ n := hne v (List.mem_cons_of_mem _ hv)
    simp [setH, hv2]
    exact hagree v (List.mem_cons_of_mem _ hv)

theorem processNode_self (g : Graph) (hm : Nat → HeightMap) (n : Nat)
    (h : ∀ u ∈ g.users n, u ≠ n) :
    processNode g hm n n =
      (g.users n).foldl (fun m u => m.absorb (hm u)) (hm n) :=
  process_inner_self n (g.users n) hm hm h (fun _ _ => rfl)

/-- The processing loop of the height analysis, final values: with a
duplicate-free order that lists every user of `n` before `n` (a reversed
topological order does), the analysis leaves at `n` exactly the fold of
`absorb` over the final maps of its users, starting from its seeded map. -/
theorem computeHeightMaps_final (g : Graph) (pre post : List Nat) (n : Nat)
    (hnodup : (pre ++ n :: post).Nodup)
    (husers : ∀ u ∈ g.users n, u ∈ pre) :
    computeHeightMaps g (pre ++ n :: post) n =
      (g.users n).foldl
        (fun m u => m.absorb (computeHeightMaps g (pre ++ n :: post) u))
        (seedMaps g n) := by
  have hsplit := List.nodup_append.mp hnodup
  have hpost : n ∉ post := (List.nodup_cons.mp hsplit.2.1).1
  have hdisj : ∀ u ∈ pre, u ∉ n :: post := fun u hu => hsplit.2.2 hu
  have hpre : n ∉ pre := fun h => hdisj n h (List.mem_cons_self _ _)
  unfold computeHeightMaps
  rw [List.foldl_append, List.foldl_cons]
  set hm1 := pre.foldl (processNode g) (seedMaps g) with hhm1
  have hFn : (post.foldl (processNode g) (processNode g hm1 n)) n =
      processNode g hm1 n n :=
    foldl_processNode_not_mem g post _ n hpost
  have huser_ne : ∀ u ∈ g.users n, u ≠ n := by
    intro u hu h
    exact hdisj u (husers u hu) (h ▸ List.mem_cons_self _ _)
  have hFu : ∀ u ∈ g.users n,
      (post.foldl (processNode g) (processNode g hm1 n)) u = hm1 u := by
    intro u hu
    have hupre := husers u hu
    have hunp : u ∉ post := fun h => hdisj u hupre (List.mem_cons_of_mem _ h)
    rw [foldl_processNode_not_mem g post _ u hunp]
    exact processNode_ne g hm1 n u (huser_ne u hu)
  rw [hFn, processNode_self g hm1 n huser_ne]
  have hinit : hm1 n = seedMaps g n := by
    rw [hhm1]
    exact foldl_processNode_not_mem g pre _ n hpre
  rw [hinit]
  refine List.foldl_ext _ _ _ ?_
  intro m u hu
  rw [hFu u hu]

/-! ## Remaining helper lemmas -/

theorem copy_two_eq_construct (node : PriorBoxClusteredNode) (a0 a1 : Arg) :
    copy_with_new_args node [a0, a1] =
      PriorBoxClustered.construct a0 a1 node.attrs := rfl

theorem construct_ok_fields (a0 a1 : Arg) (t : PriorBoxClusteredAttrs)
    (m : PriorBoxClusteredNode)
    (h : PriorBoxClustered.construct a0 a1 t = Except.ok m) :
    m.attrs = t ∧ m.layer_shape = a0 ∧ m.image_shape = a1 := by
  unfold PriorBoxClustered.construct at h
  cases hv : validate_and_infer_types a0 a1 t with
  | error e => rw [hv] at h; exact absurd h (by simp)
  | ok v =>
    obtain ⟨et, ps⟩ := v
    rw [hv] at h
    have hm := Except.ok.inj h
    rw [← hm]
    exact ⟨rfl, rfl, rfl⟩

theorem run_on_module_fold (topo : Graph → List Nat) (env : VTEnv) :
    ∀ (fs acc : List Graph) (st : VTState),
      (fs.foldl (fun acc2 f => (acc2.1 ++ [f], process_function topo env f acc2.2))
        (acc, st)).1 = acc ++ fs := by
  intro fs
  induction fs with
  | nil => intro acc st; simp
  | cons f t ih => intro acc st; simp [List.foldl_cons, ih]

/-! ## The claims -/

/-- C1: for every construction of the PriorBoxClustered node whose first shape
input is a compile-time constant with two integer elements `[H, W]` and whose
`num_priors` attribute is `P`, when the validation checks pass (and the product
fits an int64/size_t, which every realistic shape does), the inference rule
sets the single output to element type f32 and exactly the static shape
`{2, 4*H*W*P}`. -/
theorem c1_constant_layer_shape_output (layer_shape image_shape : Arg)
    (a : PriorBoxClusteredAttrs) (c : ConstData) (H W : Nat)
    (hc : layer_shape.constant = some c)
    (hdata : c.cdata = [(H : Int), (W : Int)])
    (h1 : layer_shape.et.compatible ElementType.i64 = true)
    (h2 : image_shape.et.compatible ElementType.i64 = true)
    (h3 : rank_compatible layer_shape.pshape.rank image_shape.pshape.rank = true)
    (h4 : a.widths.length = a.num_priors)
    (h5 : a.heights.length = a.num_priors)
    (hov : 4 * H * W * a.num_priors < 2 ^ 64) :
    validate_and_infer_types layer_shape image_shape a =
      Except.ok (ElementType.f32,
        PartialShape.dims [some 2, some (4 * H * W * a.num_priors)]) := by
  have hsz : shape_size c.cshape = 2 := by
    have hds := c.data_size
    rw [hdata] at hds
    simpa using hds.symm
  have hcast : 4 * (H : Int) * (W : Int) * (a.num_priors : Int)
      = ((4 * H * W * a.num_priors : Nat) : Int) := by
    push_cast
    ring
  have hlt : ((4 * H * W * a.num_priors : Nat) : Int) < (2 : Int) ^ 64 := by
    exact_mod_cast hov
  have hkey : int64_to_size_t (4 * (H : Int) * (W : Int) * (a.num_priors : Int))
      = 4 * H * W * a.num_priors := by
    unfold int64_to_size_t
    rw [hcast, Int.emod_eq_of_lt (by positivity) hlt]
    exact Int.toNat_natCast _
  simp [validate_and_infer_types, h1, h2, h3, h4, h5, hc, hsz, hdata,
        shape_to_partial_shape, hkey]

/-- C1 witness: constant first input `[3, 4]` with `num_priors = 5` yields
output shape `{2, 240}`. -/
theorem c1_constant_layer_shape_output_witness :
    validate_and_infer_types pbc_layer_const pbc_image pbc_attrs_5 =
      Except.ok (ElementType.f32, PartialShape.dims [some 2, some 240]) := by
  have h := c1_constant_layer_shape_output pbc_layer_const pbc_image pbc_attrs_5
    pbc_const_3_4 3 4 rfl rfl rfl rfl rfl rfl (by decide)
  simpa [pbc_attrs_5] using h

/-- C2 counterexample: with a non-constant first input the inference rule sets
the output partial shape to `PartialShape::dynamic()` — the fully dynamic
shape, whose rank is unknown — not to a rank-2 shape with two dynamic
dimensions as the claim states. -/
theorem c2_dynamic_output_counterexample :
    validate_and_infer_types pbc_layer_dyn pbc_image pbc_attrs_1 =
        Except.ok (ElementType.f32, PartialShape.dynamic) ∧
      PartialShape.rank PartialShape.dynamic = none ∧
      PartialShape.dynamic ≠ PartialShape.dims [none, none] :=
  ⟨rfl, rfl, by decide⟩

/-- C2 (amended): for every construction of the PriorBoxClustered node whose
first shape input is not a compile-time constant, when the validation checks
pass the inference rule sets the output's partial shape to the fully dynamic
partial shape (rank unknown), with element type f32. -/
theorem c2_nonconstant_output_fully_dynamic (layer_shape image_shape : Arg)
    (a : PriorBoxClusteredAttrs)
    (hc : layer_shape.constant = none)
    (h1 : layer_shape.et.compatible ElementType.i64 = true)
    (h2 : image_shape.et.compatible ElementType.i64 = true)
    (h3 : rank_compatible layer_shape.pshape.rank image_shape.pshape.rank = true)
    (h4 : a.widths.length = a.num_priors)
    (h5 : a.heights.length = a.num_priors) :
    validate_and_infer_types layer_shape image_shape a =
      Except.ok (ElementType.f32, PartialShape.dynamic) := by
  simp [validate_and_infer_types, h1, h2, h3, h4, h5, hc]

/-- C2 witness: a concrete non-constant first input, all checks passing,
yields the fully dynamic output shape. -/
theorem c2_nonconstant_output_fully_dynamic_witness :
    validate_and_infer_types pbc_layer_dyn pbc_image pbc_attrs_5 =
      Except.ok (ElementType.f32, PartialShape.dynamic) :=
  c2_nonconstant_output_fully_dynamic pbc_layer_dyn pbc_image pbc_attrs_5
    rfl rfl rfl rfl rfl rfl

/-- C3 counterexample: a single node with no users whose kind is not the
terminal "Result" kind is not seeded — after the analysis its height map
records nothing (in particular not a height 0 for itself), refuting the
claim's "a node with no users" clause. -/
theorem c3_seed_counterexample :
    (lone_add_graph.nodes.getD 0 default).users = [] ∧
      (lone_add_graph.nodes.getD 0 default).description ≠ "Result" ∧
      hfind (computeHeightMaps lone_add_graph [0] 0).heights 0 = none :=
  ⟨rfl, by decide, rfl⟩

/-- C3 (amended): the height analysis seeds a height of 0 at every node of the
explicitly marked terminal kind ("Result") — and only at those; a node merely
lacking users is not seeded — and then, processing nodes in reverse
topological order, for each node and each of its immediate users, records for
every sink in the user's height map the maximum of the node's currently
recorded height for that sink (0 when none is recorded yet) and the user's
recorded height for that sink plus 1.  Stated as: the seeded value of every
node, the final map at a node `n` as the fold of `absorb` over its users'
final maps, and the pointwise effect of one `absorb`. -/
theorem c3_height_analysis_amended (g : Graph) (pre post : List Nat) (n : Nat)
    (hids : (g.nodes.map GNode.id).Nodup)
    (hnodup : (pre ++ n :: post).Nodup)
    (husers : ∀ u ∈ g.users n, u ∈ pre) :
    (∀ nd ∈ g.nodes, seedMaps g nd.id =
        (if nd.description = "Result" then HeightMap.mk [(nd.id, 0)]
         else HeightMap.mk [])) ∧
    computeHeightMaps g (pre ++ n :: post) n =
      (g.users n).foldl
        (fun m u => m.absorb (computeHeightMaps g (pre ++ n :: post) u))
        (seedMaps g n) ∧
    (∀ (m other : HeightMap) (k : Nat), (other.heights.map Prod.fst).Nodup →
      hfind (m.absorb other).heights k =
        (match hfind other.heights k with
         | some v => some (max ((hfind m.heights k).getD 0) (v + 1))
         | none => hfind m.heights k)) :=
  ⟨fun nd hnd => seedMaps_spec g nd hids hnd,
   computeHeightMaps_final g pre post n hnodup husers,
   fun m other k hn => hfind_absorb m other k hn⟩

/-- C3 witness: on the two-node graph `X -> R` processed in the order `R, X`,
the final map of `X` is the fold of absorb over the final maps of its users
from its seed. -/
theorem c3_height_analysis_amended_witness :
    computeHeightMaps two_node_graph [1, 0] 0 =
      (two_node_graph.users 0).foldl
        (fun m u => m.absorb (computeHeightMaps two_node_graph [1, 0] u))
        (seedMaps two_node_graph 0) :=
  (c3_height_analysis_amended two_node_graph [1] [] 0
    (by decide) (by decide) (by decide)).2.1

/-- C4: for every pair of height maps (with the well-formed, duplicate-free
keys an `unordered_map` guarantees for the first map), `max_jump_to` is the
maximum, over all sinks recorded in both maps, of the absolute difference of
the recorded heights: every such difference is bounded by it, it is 0 or
attained by such a difference, and it is 0 when no sink is recorded in both
maps. -/
theorem c4_max_jump_characterization (a b : HeightMap)
    (ha : (a.heights.map Prod.fst).Nodup) :
    (∀ (k : Nat) (va vb : Int), hfind a.heights k = some va →
        hfind b.heights k = some vb →
        (va - vb).natAbs ≤ a.max_jump_to b) ∧
    (a.max_jump_to b = 0 ∨
      ∃ (k : Nat) (va vb : Int), hfind a.heights k = some va ∧
        hfind b.heights k = some vb ∧ a.max_jump_to b = (va - vb).natAbs) ∧
    ((∀ k : Nat, hfind a.heights k = none ∨ hfind b.heights k = none) →
      a.max_jump_to b = 0) := by
  refine ⟨?_, ?_, ?_⟩
  · intro k va vb hfa hfb
    rw [max_jump_to_eq_fold, natAbs_swap]
    exact jump_le_of_mem b.heights a.heights 0 k va vb (mem_of_hfind _ _ _ hfa) hfb
  · rw [max_jump_to_eq_fold]
    rcases foldl_jstep_attained b.heights a.heights 0 with h | ⟨k, va, vb, hm, hb, heq⟩
    · exact Or.inl h
    · exact Or.inr ⟨k, va, vb, hfind_of_mem_nodup _ _ _ ha hm, hb,
        by rw [heq, natAbs_swap]⟩
  · intro h
    rw [max_jump_to_eq_fold]
    refine foldl_jstep_all_none b.heights a.heights 0 (fun p hp => ?_)
    obtain ⟨w, hw⟩ := hfind_some_of_mem a.heights p.1 p.2 (by simpa using hp)
    rcases h p.1 with h1 | h1
    · rw [hw] at h1
      exact absurd h1 (by simp)
    · exact h1

/-- C4 witness: on the maps `{0 -> 3, 1 -> 5}` and `{0 -> 1}`, the common
sink 0 gives the bound `|3 - 1| <= max_jump_to`. -/
theorem c4_max_jump_characterization_witness :
    ((3 : Int) - 1).natAbs ≤
      HeightMap.max_jump_to (HeightMap.mk [(0, 3), (1, 5)]) (HeightMap.mk [(0, 1)]) :=
  (c4_max_jump_characterization (HeightMap.mk [(0, 3), (1, 5)])
    (HeightMap.mk [(0, 1)]) (by decide)).1 0 3 1 rfl rfl

/-- C5: on the four-node single-path graph `A -> B -> C -> D` with `D` the
only sink (the only Result node), the analysis records heights 3, 2, 1, 0 for
`A`, `B`, `C`, `D` with respect to sink `D`, and the jump distance for the
edge from `A` to `B` is 1. -/
theorem c5_path_graph_heights :
    hfind (computeHeightMaps path_graph [3, 2, 1, 0] 0).heights 3 = some 3 ∧
    hfind (computeHeightMaps path_graph [3, 2, 1, 0] 1).heights 3 = some 2 ∧
    hfind (computeHeightMaps path_graph [3, 2, 1, 0] 2).heights 3 = some 1 ∧
    hfind (computeHeightMaps path_graph [3, 2, 1, 0] 3).heights 3 = some 0 ∧
    (computeHeightMaps path_graph [3, 2, 1, 0] 0).max_jump_to
      (computeHeightMaps path_graph [3, 2, 1, 0] 1) = 1 :=
  ⟨rfl, rfl, rfl, rfl, rfl⟩

/-- C6 counterexample: a two-element replacement list passes the arity check,
yet `copy_with_new_args` fails (here on the re-run element-type check of the
constructor) and produces no node — refuting the claim's "with a list of
exactly 2 arguments it produces a new node". -/
theorem c6_copy_counterexample :
    ([pbc_arg_f32, pbc_image] : List Arg).length = 2 ∧
    copy_with_new_args pbc_node_1 [pbc_arg_f32, pbc_image] =
      Except.error (NodeValidationError.layer_et_not_i64 ElementType.f32) :=
  ⟨rfl, rfl⟩

/-- C6 (amended): for every PriorBoxClustered node, a replacement-argument
list whose length differs from the input arity 2 makes `copy_with_new_args`
fail with the arity-mismatch validation error and construct no node; a list of
exactly 2 arguments is handed to the constructor (which re-runs validation),
and whenever that construction succeeds the result is a node of the same kind
and attributes bound to the two replacement arguments. -/
theorem c6_copy_with_new_args_amended (node : PriorBoxClusteredNode)
    (new_args : List Arg) :
    (new_args.length ≠ 2 →
      copy_with_new_args node new_args =
        Except.error (NodeValidationError.new_args_count_mismatch 2 new_args.length)) ∧
    (∀ (a0 a1 : Arg) (m : PriorBoxClusteredNode), new_args = [a0, a1] →
      PriorBoxClustered.construct a0 a1 node.attrs = Except.ok m →
      copy_with_new_args node new_args = Except.ok m ∧
        m.attrs = node.attrs ∧ m.layer_shape = a0 ∧ m.image_shape = a1) := by
  constructor
  · intro h
    unfold copy_with_new_args check_new_args_count
    rw [if_neg h]
  · intro a0 a1 m hlist hcon
    subst hlist
    have hfields := construct_ok_fields a0 a1 node.attrs m hcon
    exact ⟨(copy_two_eq_construct node a0 a1).trans hcon, hfields⟩

/-- C6 witness: a one-element list fails with the arity mismatch, and a valid
two-element list yields the node with the original attributes bound to the
replacements. -/
theorem c6_copy_with_new_args_amended_witness :
    copy_with_new_args pbc_node_1 [pbc_layer_dyn] =
        Except.error (NodeValidationError.new_args_count_mismatch 2 1) ∧
      (copy_with_new_args pbc_node_1 [pbc_layer_const, pbc_image] =
          Except.ok pbc_copy_node ∧
        pbc_copy_node.attrs = pbc_node_1.attrs ∧
        pbc_copy_node.layer_shape = pbc_layer_const ∧
        pbc_copy_node.image_shape = pbc_image) :=
  ⟨(c6_copy_with_new_args_amended pbc_node_1 [pbc_layer_dyn]).1 (by decide),
   (c6_copy_with_new_args_amended pbc_node_1 [pbc_layer_const, pbc_image]).2
     pbc_layer_const pbc_image pbc_copy_node rfl rfl⟩

/-- C7: construction of the PriorBoxClustered node runs its inference rule
immediately and fails with a validation error exactly when one of its checks
fails: a shape input's element type incompatible with i64, incompatible input
ranks, a widths or heights list whose length differs from num_priors, or a
constant first input whose total element count is not 2.  Each error
constructor names the offending input or attribute and carries the actual
value, mirroring the expected-versus-actual message. -/
theorem c7_construct_error_iff (layer_shape image_shape : Arg)
    (a : PriorBoxClusteredAttrs) :
    (∃ e, PriorBoxClustered.construct layer_shape image_shape a = Except.error e) ↔
      (layer_shape.et.compatible ElementType.i64 = false ∨
       image_shape.et.compatible ElementType.i64 = false ∨
       rank_compatible layer_shape.pshape.rank image_shape.pshape.rank = false ∨
       a.widths.length ≠ a.num_priors ∨
       a.heights.length ≠ a.num_priors ∨
       (∃ c, layer_shape.constant = some c ∧ shape_size c.cshape ≠ 2)) := by
  have hmain : (∃ e, validate_and_infer_types layer_shape image_shape a = Except.error e) ↔
      (layer_shape.et.compatible ElementType.i64 = false ∨
       image_shape.et.compatible ElementType.i64 = false ∨
       rank_compatible layer_shape.pshape.rank image_shape.pshape.rank = false ∨
       a.widths.length ≠ a.num_priors ∨
       a.heights.length ≠ a.num_priors ∨
       (∃ c, layer_shape.constant = some c ∧ shape_size c.cshape ≠ 2)) := by
    unfold validate_and_infer_types
    rcases hq1 : layer_shape.et.compatible ElementType.i64 with _ | _
    · simp [hq1]
    · rcases hq2 : image_shape.et.compatible ElementType.i64 with _ | _
      · simp [hq1, hq2]
      · rcases hq3 : rank_compatible layer_shape.pshape.rank image_shape.pshape.rank with _ | _
        · simp [hq1, hq2, hq3]
        · by_cases hq4 : a.widths.length = a.num_priors
          · by_cases hq5 : a.heights.length = a.num_priors
            · rcases hq6 : layer_shape.constant with _ | c
              · simp [hq1, hq2, hq3, hq4, hq5, hq6]
              · by_cases hq7 : shape_size c.cshape = 2
                · simp [hq1, hq2, hq3, hq4, hq5, hq6, hq7]
                · simp [hq1, hq2, hq3, hq4, hq5, hq6, hq7]
            · simp [hq1, hq2, hq3, hq4, hq5]
          · simp [hq1, hq2, hq3, hq4]
  rw [← hmain]
  unfold PriorBoxClustered.construct
  cases hv : validate_and_infer_types layer_shape image_shape a with
  | error e0 => simp [hv]
  | ok v =>
    cases v with
    | mk et ps => simp [hv]

/-- C8: the height/jump-distance analysis and the rest of `run_on_module` are
pure with respect to the module: the functions (hence every node's kind,
arguments, users, output types and output shapes) come back exactly as they
went in; the pass only accumulates text in its own state. -/
theorem c8_run_on_module_pure (topo : Graph → List Nat) (env : VTEnv)
    (functions : List Graph) (st : VTState) :
    (run_on_module topo env functions st).functions = functions := by
  unfold run_on_module
  simpa using run_on_module_fold topo env functions [] st

/-- C9: `run_on_module` returns false for every module — the visualization
pass never signals "graph changed" to the orchestrator. -/
theorem c9_run_on_module_returns_false (topo : Graph → List Nat) (env : VTEnv)
    (functions : List Graph) (st : VTState) :
    (run_on_module topo env functions st).changed = false := rfl

/-- C10: the jump-distance computation is symmetric — for every pair of height
maps with the duplicate-free keys an `unordered_map` guarantees,
`a.max_jump_to b = b.max_jump_to a`, since both range over the sinks recorded
in both maps and take an absolute difference. -/
theorem c10_max_jump_symmetric (a b : HeightMap)
    (ha : (a.heights.map Prod.fst).Nodup)
    (hb : (b.heights.map Prod.fst).Nodup) :
    a.max_jump_to b = b.max_jump_to a := by
  have dir : ∀ (x y : HeightMap), (x.heights.map Prod.fst).Nodup →
      x.max_jump_to y ≤ y.max_jump_to x := by
    intro x y hx
    rw [max_jump_to_eq_fold]
    rcases foldl_jstep_attained y.heights x.heights 0 with h | ⟨k, va, vb, hm, hyb, heq⟩
    · rw [h]
      exact Nat.zero_le _
    · rw [heq, max_jump_to_eq_fold, natAbs_swap]
      exact jump_le_of_mem x.heights y.heights 0 k vb va
        (mem_of_hfind _ _ _ hyb) (hfind_of_mem_nodup _ _ _ hx hm)
  exact Nat.le_antisymm (dir a b ha) (dir b a hb)

/-- C10 witness: symmetry on the concrete maps `{0 -> 3, 1 -> 5}` and
`{0 -> 1}`. -/
theorem c10_max_jump_symmetric_witness :
    HeightMap.max_jump_to (HeightMap.mk [(0, 3), (1, 5)]) (HeightMap.mk [(0, 1)]) =
      HeightMap.max_jump_to (HeightMap.mk [(0, 1)]) (HeightMap.mk [(0, 3), (1, 5)]) :=
  c10_max_jump_symmetric (HeightMap.mk [(0, 3), (1, 5)]) (HeightMap.mk [(0, 1)])
    (by decide) (by decide)
